import Mathlib

set_option maxRecDepth 100000

/-!
# Verification of `update-db` (src/update-db.mjs)

Shallow embedding of the migration tool `update-db.mjs`:
the template expander `injectDefaults`, the consistency warnings
(orphan scripts, tables without RLS scripts), the startup checks, and the
main transactional application loop.  The SHA-256 digest is modelled as a
parameter `hash : String → String`; everything proved about it holds for
every choice of digest function, and witnesses instantiate it with a
concrete injective function.
-/

namespace UpdateDb

/-! ## Template expander (`injectDefaults`, lines 58–99)

JavaScript `String.prototype.replace` with a *string* pattern replaces only
the first occurrence; with a non-global regex it replaces only the first
match.  Both are modelled explicitly. -/

/-- `replaceFirstAux pat rep l` replaces the first occurrence of `pat`
in `l` by `rep` (identity when `pat` does not occur), mirroring
JS `String.replace` with a string pattern. -/
def replaceFirstAux (pat rep : List Char) : List Char → List Char
  | [] => []
  | c :: cs =>
    if pat.isPrefixOf (c :: cs) then rep ++ (c :: cs).drop pat.length
    else c :: replaceFirstAux pat rep cs

def replaceFirstStr (s pat rep : String) : String :=
  String.mk (replaceFirstAux pat.toList rep.toList s.toList)

/-- The replacement text of the `'%DEFAULT_COLUMNS%'` substitution
(lines 62–70), transcribed byte-for-byte from the template literal. -/
def DEFAULT_COLUMNS_BODY : String :=
  "-- default columns:\n    ADD COLUMN IF NOT EXISTS created_at TIMESTAMP WITH TIME ZONE NOT NULL DEFAULT CURRENT_TIMESTAMP\n  , ADD COLUMN IF NOT EXISTS created_by UUID NOT NULL DEFAULT COALESCE(auth.uid(), uuid('00000000-0000-0000-0000-000000000000'))\n  , ADD COLUMN IF NOT EXISTS updated_at TIMESTAMP WITH TIME ZONE NOT NULL DEFAULT CURRENT_TIMESTAMP\n  , ADD COLUMN IF NOT EXISTS updated_by UUID NOT NULL DEFAULT COALESCE(auth.uid(), uuid('00000000-0000-0000-0000-000000000000'))\n  , ADD COLUMN IF NOT EXISTS deleted_at TIMESTAMP WITH TIME ZONE\n  , ADD COLUMN IF NOT EXISTS deleted_by UUID\n  , ADD COLUMN IF NOT EXISTS deleted_reason TEXT\n"

def replaceDefaultColumns (s : String) : String :=
  replaceFirstStr s "%DEFAULT_COLUMNS%" DEFAULT_COLUMNS_BODY

/-- The replacement template of the trigger substitution (lines 76–96) with
the two capture groups `$1`, `$2` substituted in, as JS does. -/
def defaultTriggerBody (g1 g2 : String) : String :=
  "-- default trigger\nDROP TRIGGER IF EXISTS tr_" ++ g1 ++ "_" ++ g2 ++
  "_update ON " ++ g1 ++ "." ++ g2 ++ ";\nDROP FUNCTION IF EXISTS " ++ g1 ++
  ".func_tr_" ++ g1 ++ "_" ++ g2 ++
  "_update;\nCREATE FUNCTION public.func_tr_" ++ g1 ++ "_" ++ g2 ++
  "_update() RETURNS TRIGGER\n    LANGUAGE PLPGSQL\n    AS\n$func$\n\nBEGIN\n    NEW.updated_at := now();\n    NEW.updated_by := COALESCE(auth.uid(), uuid('00000000-0000-0000-0000-000000000000'));\n    RETURN NEW;\nEND;\n$func$;\n\nCREATE TRIGGER tr_" ++
  g1 ++ "_" ++ g2 ++
  "_update\n    BEFORE UPDATE\n    ON " ++ g1 ++ "." ++ g2 ++
  "\n    FOR EACH ROW\n    EXECUTE FUNCTION " ++ g1 ++ ".func_tr_" ++ g1 ++
  "_" ++ g2 ++ "_update();\n"

/-- Matcher for the tail `(.*?)\)%` of the trigger regex: splits `l` into
the lazily-minimal group (no newline, `.` does not match `\n` in JS) and
the remainder after the literal `)%`. -/
def findClose : List Char → Option (List Char × List Char)
  | [] => none
  | c :: cs =>
    if c = '\n' then none
    else if c = ')' then
      match cs with
      | '%' :: rest => some ([], rest)
      | _ => (findClose cs).map (fun p => (c :: p.1, p.2))
    else (findClose cs).map (fun p => (c :: p.1, p.2))

/-- Matcher for `(.*?)\.(.*?)\)%`: the first group is lazily minimal; a dot
at which the tail fails to match is backtracked into the first group. -/
def findDot : List Char → Option (List Char × List Char × List Char)
  | [] => none
  | c :: cs =>
    if c = '\n' then none
    else if c = '.' then
      match findClose cs with
      | some (g2, rest) => some ([], g2, rest)
      | none => (findDot cs).map (fun t => (c :: t.1, t.2.1, t.2.2))
    else (findDot cs).map (fun t => (c :: t.1, t.2.1, t.2.2))

def TRIGGER_OPEN : List Char := "%DEFAULT_TRIGGER(".toList

/-- Leftmost match of `/%DEFAULT_TRIGGER\((.*?)\.(.*?)\)%/`: returns
`(prefix, group1, group2, suffix)` of the first match, if any. -/
def triggerSearch : List Char → Option (List Char × List Char × List Char × List Char)
  | [] => none
  | c :: cs =>
    if TRIGGER_OPEN.isPrefixOf (c :: cs) then
      match findDot ((c :: cs).drop TRIGGER_OPEN.length) with
      | some (g1, g2, rest) => some ([], g1, g2, rest)
      | none => (triggerSearch cs).map (fun t => (c :: t.1, t.2))
    else (triggerSearch cs).map (fun t => (c :: t.1, t.2))

def replaceDefaultTrigger (s : String) : String :=
  match triggerSearch s.toList with
  | none => s
  | some (pre, g1, g2, post) =>
      String.mk pre ++ defaultTriggerBody (String.mk g1) (String.mk g2) ++ String.mk post

/-- `injectDefaults` (lines 58–99): first the `%DEFAULT_COLUMNS%`
substitution, then the `%DEFAULT_TRIGGER(schema.object)%` substitution. -/
def injectDefaults (query : String) : String :=
  replaceDefaultTrigger (replaceDefaultColumns query)

/-! ## Consistency checker (lines 186–227)

`readdirSync` yields the directory's (distinct) file names; the code sorts
them lexically and builds the two warning lists before the run. -/

/-- Lexicographic (code-unit) comparison used by the JS default sort. -/
def strLeAux : List Char → List Char → Bool
  | [], _ => true
  | _ :: _, [] => false
  | a :: as, b :: bs => if a = b then strLeAux as bs else decide (a < b)

def insertSorted (s : String) : List String → List String
  | [] => [s]
  | t :: ts => if strLeAux s.toList t.toList then s :: t :: ts else t :: insertSorted s ts

/-- `updateScriptFiles.sort()` (line 188). -/
def sortStrings (l : List String) : List String :=
  l.foldr insertSorted []

/-- Orphan check (lines 190–195): files referenced neither in `updates`
nor in `ignore`. -/
def warnNotReferencedScripts (files updates ignore : List String) : List String :=
  files.filter (fun f => !(updates.contains f) && !(ignore.contains f))

def isAsciiLetter (c : Char) : Bool :=
  ('a' ≤ c && c ≤ 'z') || ('A' ≤ c && c ≤ 'Z')

/-- Matcher for the tail `(.*?) TABLE` after the dot of
`/(^[a-zA-Z]*?\..*?) TABLE/`: lazily-minimal newline-free run of
characters followed by the literal `" TABLE"`. -/
def findTableTag : List Char → Option (List Char)
  | [] => none
  | c :: cs =>
    if " TABLE".toList.isPrefixOf (c :: cs) then some []
    else if c = '\n' then none
    else (findTableTag cs).map (fun b => c :: b)

/-- Capture group of `/(^[a-zA-Z]*?\..*?) TABLE/` applied to a file name:
the match is anchored, so the leading maximal run of ASCII letters must be
followed by a dot, and the group extends to the first `" TABLE"`. -/
def tableMatch (f : String) : Option String :=
  let cs := f.toList
  match cs.dropWhile isAsciiLetter with
  | '.' :: rest =>
      (findTableTag rest).map (fun b => String.mk (cs.takeWhile isAsciiLetter ++ '.' :: b))
  | _ => none

/-- Capture group of the leftmost match of `/(.*?) RLS/`: the characters
from the start of the line containing the first `" RLS"` up to it. -/
def rlsGroupAux (acc : List Char) : List Char → Option (List Char)
  | [] => none
  | c :: cs =>
    if " RLS".toList.isPrefixOf (c :: cs) then some acc.reverse
    else if c = '\n' then rlsGroupAux [] cs
    else rlsGroupAux (c :: acc) cs

def rlsMatchOpt (f : String) : Option String :=
  (rlsGroupAux [] f.toList).map String.mk

/-- RLS pairing check (lines 197–214): a file matching the TABLE pattern is
reported when no file's RLS capture group equals its capture group. -/
def warnTablesWithoutRLS (files : List String) : List String :=
  files.filter (fun f =>
    match tableMatch f with
    | none => false
    | some g => !(files.any (fun f2 => rlsMatchOpt f2 == some g)))

/-- The warnings printed by `printWarnings` (lines 216–227), tagged by
which of the two messages is emitted. -/
inductive Warning where
  | notReferenced (file : String)
  | tableWithoutRLS (file : String)
deriving DecidableEq, Repr

def printWarnings (files updates ignore : List String) : List Warning :=
  (warnNotReferencedScripts files updates ignore).map Warning.notReferenced ++
  (warnTablesWithoutRLS files).map Warning.tableWithoutRLS

/-! ## Startup checks (lines 157–188)

The environment checks call `exit(1)` on a falsy value; the directory
check (lines 180–182) only prints an error.  `readFileSync` /
`readdirSync` throw uncaught exceptions when their target is absent. -/

/-- JS falsiness of an optional environment string: absent or empty. -/
def jsFalsy : Option String → Bool
  | none => true
  | some s => s = ""

structure EnvConfig where
  pghost : Option String
  pgport : Option String
  pgdatabase : Option String
  pguser : Option String
  pgpassword : Option String
deriving DecidableEq, Repr

/-- All five `checkEnvVarAndQuitIfFalsy` calls (lines 174–178) pass. -/
def envOk (e : EnvConfig) : Bool :=
  !jsFalsy e.pghost && !jsFalsy e.pgport && !jsFalsy e.pgdatabase &&
  !jsFalsy e.pguser && !jsFalsy e.pgpassword

inductive StartupOutcome where
  /-- `exit(1)` from `checkEnvVarAndQuitIfFalsy`. -/
  | envExit
  /-- an uncaught exception thrown at the named call site. -/
  | crash (site : String)
  /-- startup completed; the connection phase may begin. -/
  | ready
deriving DecidableEq, Repr

/-- The startup sequence (lines 174–188): env checks, the directory
existence check (which only prints), `readFileSync` of `db-updates.json`,
`readdirSync` of the script directory. -/
def startup (e : EnvConfig) (dirExists : Bool) (jsonReadable : Bool) : StartupOutcome :=
  if !envOk e then .envExit
  else
    -- lines 180-182: `if (!existsSync(...)) { console.error(...) }` -- no exit
    if !jsonReadable then .crash "readFileSync"
    else if !dirExists then .crash "readdirSync"
    else .ready

/-- Whether the missing-directory message of lines 180–182 is printed
(startup reaches that check whenever the env checks pass). -/
def dirWarningPrinted (e : EnvConfig) (dirExists : Bool) : Bool :=
  envOk e && !dirExists

/-- Exit status of a terminated startup: `exit(1)` from an env check, and
Node's exit code 1 for an uncaught exception at module top level; `none`
when startup completes and the run proceeds to connect (the `pg.Client`
is only constructed at line 229, after all of startup). -/
def startupExitCode : StartupOutcome → Option Nat
  | .envExit => some 1
  | .crash _ => some 1
  | .ready => none

/-! ## Ledger and database state

`public.db_updates` rows, as selected by `query_db_updates`
(lines 139–155): `id_db_updates`, `name`, `sha256`.  The audit columns are
opaque to every decision the tool makes and are not modelled.  Script
execution against the database is modelled as an opaque append of the
executed body to `objects`, the log of schema effects. -/

structure DbUpdateRow where
  id : Nat
  name : String
  sha256 : String
deriving DecidableEq, Repr

structure DbState where
  /-- whether `public.db_updates` exists (created by
  `manage_db_updates_table` outside the transaction). -/
  ledgerTableExists : Bool
  ledger : List DbUpdateRow
  /-- opaque log of script bodies executed and committed against the
  database (the user-visible schema changes). -/
  objects : List String
deriving DecidableEq, Repr

/-- `manage_db_updates_table` (lines 101–137, called at line 240 before
`BEGIN`): idempotently ensures the ledger table; it neither reads nor
writes ledger rows. -/
def ensureLedgerTable (db : DbState) : DbState :=
  { db with ledgerTableExists := true }

/-- `alreadyApplied_db_updates.find((dbu) => dbu.name === updateScript)`
(line 270): the first row with the given name. -/
def firstRow (ledger : List DbUpdateRow) (n : String) : Option DbUpdateRow :=
  ledger.find? (fun r => r.name == n)

/-- `readFileSync` of a script, as a lookup in the directory contents. -/
def lookupFile (files : List (String × String)) (n : String) : Option String :=
  (files.find? (fun p => p.1 == n)).map (fun p => p.2)

/-- A fresh value for the identity column of an inserted row. -/
def freshId (ledger : List DbUpdateRow) : Nat :=
  ledger.foldr (fun r m => max (r.id + 1) m) 0

inductive Decision where
  | skip
  | update
  | insert
deriving DecidableEq, Repr

/-- The in-place rewrite performed by the
`UPDATE public.db_updates SET sha256 = $1 ... WHERE name = $2` statement of
line 284: every row carrying the name gets the new digest. -/
def setSha (u s : String) (ledger : List DbUpdateRow) : List DbUpdateRow :=
  ledger.map (fun r2 => if r2.name == u then { r2 with sha256 := s } else r2)

/-- In-transaction state of the application loop (lines 248–293). -/
structure LoopState where
  db : DbState
  updateCounter : Nat
  /-- script bodies executed inside the transaction, in order. -/
  executedBodies : List String
  /-- number of `UPDATE`/`INSERT` statements issued against the ledger. -/
  ledgerWrites : Nat
  decisions : List Decision
deriving DecidableEq, Repr

/-- One iteration of the loop over `updateScripts.updates`
(lines 252–293).  `hash` is the SHA-256 hex digest; `execOk` tells whether
executing a given statement text against the database succeeds.  Errors
(`FILE NOT FOUND`, execution failure) are the thrown exceptions caught at
line 313. -/
def processEntry (hash : String → String) (execOk : String → Bool)
    (files : List (String × String)) (snapshot : List DbUpdateRow)
    (ls : LoopState) (updateScript : String) : Except String LoopState :=
  match lookupFile files updateScript with
  | none => .error ("FILE NOT FOUND: " ++ updateScript)
  | some raw =>
    -- line 263: the digest is taken of the raw file content,
    let sha256 := hash raw
    -- line 266: and only afterwards are the templates expanded.
    let script := injectDefaults raw
    match firstRow snapshot updateScript with
    | some r =>
      if r.sha256 = sha256 then
        -- lines 272-276: skip, already applied with the same sha256
        .ok { ls with decisions := ls.decisions ++ [.skip] }
      else if execOk script then
        -- lines 278-287: execute the body, then UPDATE the ledger row(s)
        .ok { db := { ls.db with
                      objects := ls.db.objects ++ [script]
                      ledger := setSha updateScript sha256 ls.db.ledger }
              updateCounter := ls.updateCounter + 1
              executedBodies := ls.executedBodies ++ [script]
              ledgerWrites := ls.ledgerWrites + 1
              decisions := ls.decisions ++ [.update] }
      else .error script
    | none =>
      if execOk script then
        -- lines 278-281, 290-292: execute the body, then INSERT a row
        .ok { db := { ls.db with
                      objects := ls.db.objects ++ [script]
                      ledger := ls.db.ledger ++
                        [{ id := freshId ls.db.ledger, name := updateScript, sha256 := sha256 }] }
              updateCounter := ls.updateCounter + 1
              executedBodies := ls.executedBodies ++ [script]
              ledgerWrites := ls.ledgerWrites + 1
              decisions := ls.decisions ++ [.insert] }
      else .error script

/-- The loop of lines 252–293; an error carries the loop state at the
moment of the throw (all of it discarded by the subsequent `ROLLBACK`). -/
def runLoop (hash : String → String) (execOk : String → Bool)
    (files : List (String × String)) (snapshot : List DbUpdateRow) :
    List String → LoopState → Except (String × LoopState) LoopState
  | [], ls => .ok ls
  | u :: us, ls =>
    match processEntry hash execOk files snapshot ls u with
    | .error e => .error (e, ls)
    | .ok ls2 => runLoop hash execOk files snapshot us ls2

structure RunOutcome where
  exitCode : Nat
  db : DbState
  /-- bodies executed inside this run's transaction (visible afterwards
  only if the run committed). -/
  executedBodies : List String
  ledgerWrites : Nat
  decisions : List Decision
  /-- warnings actually printed (`printWarnings` runs only on the two
  success paths, lines 300 and 310). -/
  warnings : List Warning
deriving DecidableEq, Repr

/-- The main run (lines 186–227 and 233–327), after a successful
connection: build the warning lists, ensure the ledger table (outside the
transaction), snapshot the ledger, run the loop inside one transaction,
then `ROLLBACK` (dry run or error) or `COMMIT`. -/
def runTool (hash : String → String) (execOk : String → Bool)
    (files : List (String × String)) (updates ignore : List String)
    (doCommit : Bool) (db0 : DbState) : RunOutcome :=
  let fileNames := sortStrings (files.map Prod.fst)
  let warns := printWarnings fileNames updates ignore
  let db1 := ensureLedgerTable db0
  let snapshot := db1.ledger
  let init : LoopState :=
    { db := db1, updateCounter := 0, executedBodies := [], ledgerWrites := 0, decisions := [] }
  match runLoop hash execOk files snapshot updates init with
  | .error (_, ls) =>
      -- lines 313-327: ROLLBACK due to errors, exit(1); no warnings printed
      { exitCode := 1, db := db1, executedBodies := ls.executedBodies,
        ledgerWrites := ls.ledgerWrites, decisions := ls.decisions, warnings := [] }
  | .ok ls =>
      if doCommit then
        -- lines 306-312: COMMIT, print warnings, exit 0
        { exitCode := 0, db := ls.db, executedBodies := ls.executedBodies,
          ledgerWrites := ls.ledgerWrites, decisions := ls.decisions, warnings := warns }
      else
        -- lines 295-304: ROLLBACK (dry run), print warnings, exit 0
        { exitCode := 0, db := db1, executedBodies := ls.executedBodies,
          ledgerWrites := ls.ledgerWrites, decisions := ls.decisions, warnings := warns }

/-- The Skip/Update/Insert decision of section 4.4, computed from the
pre-run ledger snapshot (the only source the loop consults). -/
def decideFromSnapshot (hash : String → String) (files : List (String × String))
    (snapshot : List DbUpdateRow) (u : String) : Decision :=
  match lookupFile files u with
  | none => .skip
  | some raw =>
    match firstRow snapshot u with
    | some r => if r.sha256 = hash raw then .skip else .update
    | none => .insert

/-! ## Derived predicates -/

/-- Occurrence of `pat` as a contiguous substring. -/
def hasOccur (pat : List Char) : List Char → Bool
  | [] => false
  | c :: cs => pat.isPrefixOf (c :: cs) || hasOccur pat cs

/-- Entry `u` is accounted for in `ledger`: its file exists and the first
ledger row named `u` stores the digest of that file's raw content. -/
def entryApplied (hash : String → String) (files : List (String × String))
    (u : String) (ledger : List DbUpdateRow) : Prop :=
  ∃ raw r, lookupFile files u = some raw ∧ firstRow ledger u = some r ∧
    r.sha256 = hash raw

/-- Mid-loop invariant: for every name, the first matching row is either
still the snapshot's or has been rewritten to the digest of the name's
current file content. -/
def snapInv (hash : String → String) (files : List (String × String))
    (snapshot ledger : List DbUpdateRow) : Prop :=
  ∀ n, firstRow ledger n = firstRow snapshot n ∨ entryApplied hash files n ledger

/-- Number of ledger rows carrying a given name. -/
def countRows (ledger : List DbUpdateRow) (n : String) : Nat :=
  (ledger.filter (fun r => r.name == n)).length

/-! ## Basic lemmas -/

theorem stringMkToList (s : String) : String.mk s.toList = s := by
  cases s; rfl

theorem replaceFirstAux_of_not_occur (pat rep : List Char) :
    ∀ l : List Char, hasOccur pat l = false → replaceFirstAux pat rep l = l := by
  intro l
  induction l with
  | nil => intro _; rfl
  | cons c cs ih =>
    intro h
    simp only [hasOccur, Bool.or_eq_false_iff] at h
    simp [replaceFirstAux, h.1, ih h.2]

theorem firstRow_cons (r : DbUpdateRow) (l : List DbUpdateRow) (n : String) :
    firstRow (r :: l) n = if r.name == n then some r else firstRow l n := by
  by_cases h : r.name == n
  · simp [firstRow, List.find?_cons_of_pos, h]
  · simp only [Bool.not_eq_true] at h
    simp [firstRow, List.find?_cons_of_neg, h]

theorem firstRow_name (l : List DbUpdateRow) (n : String) (r : DbUpdateRow)
    (h : firstRow l n = some r) : r.name = n := by
  have := List.find?_some h
  simpa using this

theorem firstRow_setSha_ne (l : List DbUpdateRow) (u s n : String) (h : n ≠ u) :
    firstRow (setSha u s l) n = firstRow l n := by
  induction l with
  | nil => rfl
  | cons r rs ih =>
    simp only [setSha, List.map_cons]
    by_cases hr : r.name = u
    · rw [firstRow_cons, firstRow_cons]
      have h1 : ((if (r.name == u) = true then { r with sha256 := s } else r).name == n) = false := by
        simp [hr, Ne.symm h]
      have h2 : (r.name == n) = false := by simp [hr, Ne.symm h]
      rw [h1, h2]
      simpa [setSha] using ih
    · rw [firstRow_cons, firstRow_cons]
      have h1 : (if (r.name == u) = true then { r with sha256 := s } else r) = r := by
        simp [hr]
      rw [h1]
      by_cases h2 : r.name = n
      · simp [h2]
      · simp only [beq_iff_eq, h2, if_false]
        simpa [setSha] using ih

theorem firstRow_setSha_eq (l : List DbUpdateRow) (u s : String) :
    firstRow (setSha u s l) u = (firstRow l u).map (fun r => { r with sha256 := s }) := by
  induction l with
  | nil => rfl
  | cons r rs ih =>
    simp only [setSha, List.map_cons]
    by_cases hr : r.name = u
    · rw [firstRow_cons, firstRow_cons]
      have h1 : ((if (r.name == u) = true then { r with sha256 := s } else r).name == u) = true := by
        simp [hr]
      rw [h1]
      simp [hr]
    · rw [firstRow_cons, firstRow_cons]
      have h1 : (if (r.name == u) = true then { r with sha256 := s } else r) = r := by
        simp [hr]
      rw [h1]
      simp only [beq_iff_eq, hr, if_false]
      simpa [setSha] using ih

theorem firstRow_append_some (l : List DbUpdateRow) (x r : DbUpdateRow) (n : String)
    (h : firstRow l n = some r) : firstRow (l ++ [x]) n = some r := by
  induction l with
  | nil => simp [firstRow] at h
  | cons a as ih =>
    rw [firstRow_cons] at h
    rw [List.cons_append, firstRow_cons]
    by_cases ha : a.name = n
    · simp only [beq_iff_eq, ha, if_true] at h ⊢
      exact h
    · simp only [beq_iff_eq, ha, if_false] at h ⊢
      exact ih h

theorem firstRow_append_none (l : List DbUpdateRow) (x : DbUpdateRow) (n : String)
    (h : firstRow l n = none) :
    firstRow (l ++ [x]) n = if x.name = n then some x else none := by
  induction l with
  | nil =>
    by_cases hx : x.name = n
    · rw [List.nil_append, firstRow_cons, firstRow]
      simp [hx]
    · rw [List.nil_append, firstRow_cons, firstRow]
      simp [hx]
  | cons a as ih =>
    rw [firstRow_cons] at h
    rw [List.cons_append, firstRow_cons]
    by_cases ha : a.name = n
    · simp [ha] at h
    · simp only [beq_iff_eq, ha, if_false] at h ⊢
      exact ih h

theorem countRows_cons (r : DbUpdateRow) (l : List DbUpdateRow) (n : String) :
    countRows (r :: l) n = (if r.name = n then 1 else 0) + countRows l n := by
  by_cases h : r.name = n
  · simp [countRows, List.filter_cons, h, Nat.add_comm]
  · simp [countRows, List.filter_cons, h]

theorem countRows_setSha (l : List DbUpdateRow) (u s n : String) :
    countRows (setSha u s l) n = countRows l n := by
  induction l with
  | nil => rfl
  | cons r rs ih =>
    simp only [setSha, List.map_cons]
    rw [countRows_cons, countRows_cons]
    have hname : (if (r.name == u) = true then { r with sha256 := s } else r).name = r.name := by
      by_cases hr : r.name = u <;> simp [hr]
    rw [hname]
    simp only [setSha] at ih
    rw [ih]

theorem countRows_append (l : List DbUpdateRow) (x : DbUpdateRow) (n : String) :
    countRows (l ++ [x]) n = countRows l n + (if x.name = n then 1 else 0) := by
  by_cases h : x.name = n
  · simp [countRows, List.filter_append, List.filter_cons, h]
  · simp [countRows, List.filter_append, List.filter_cons, h]

theorem firstRow_none_iff_countRows_zero (l : List DbUpdateRow) (n : String) :
    firstRow l n = none ↔ countRows l n = 0 := by
  induction l with
  | nil => simp [firstRow, countRows]
  | cons r rs ih =>
    rw [firstRow_cons, countRows_cons]
    by_cases h : r.name = n
    · simp [h]
    · simp only [beq_iff_eq, h, if_false]
      simpa using ih

/-! ## Characterization of one loop iteration -/

theorem processEntry_ok_cases (hash : String → String) (execOk : String → Bool)
    (files : List (String × String)) (snapshot : List DbUpdateRow)
    (ls ls' : LoopState) (u : String)
    (h : processEntry hash execOk files snapshot ls u = .ok ls') :
    ∃ raw, lookupFile files u = some raw ∧
      ((∃ r, firstRow snapshot u = some r ∧ r.sha256 = hash raw ∧
          ls' = { ls with decisions := ls.decisions ++ [.skip] })
       ∨ (∃ r, firstRow snapshot u = some r ∧ r.sha256 ≠ hash raw ∧
          execOk (injectDefaults raw) = true ∧
          ls' = { db := { ls.db with
                          objects := ls.db.objects ++ [injectDefaults raw]
                          ledger := setSha u (hash raw) ls.db.ledger }
                  updateCounter := ls.updateCounter + 1
                  executedBodies := ls.executedBodies ++ [injectDefaults raw]
                  ledgerWrites := ls.ledgerWrites + 1
                  decisions := ls.decisions ++ [.update] })
       ∨ (firstRow snapshot u = none ∧ execOk (injectDefaults raw) = true ∧
          ls' = { db := { ls.db with
                          objects := ls.db.objects ++ [injectDefaults raw]
                          ledger := ls.db.ledger ++
                            [{ id := freshId ls.db.ledger, name := u, sha256 := hash raw }] }
                  updateCounter := ls.updateCounter + 1
                  executedBodies := ls.executedBodies ++ [injectDefaults raw]
                  ledgerWrites := ls.ledgerWrites + 1
                  decisions := ls.decisions ++ [.insert] })) := by
  cases hf : lookupFile files u with
  | none => simp [processEntry, hf] at h
  | some raw =>
    cases hr : firstRow snapshot u with
    | some r =>
      simp only [processEntry, hf, hr] at h
      split at h
      next hs =>
        exact ⟨raw, rfl, Or.inl ⟨r, rfl, hs, (Except.ok.inj h).symm⟩⟩
      next hs =>
        split at h
        next he =>
          exact ⟨raw, rfl, Or.inr (Or.inl ⟨r, rfl, hs, he, (Except.ok.inj h).symm⟩)⟩
        next he => exact absurd h (by simp)
    | none =>
      simp only [processEntry, hf, hr] at h
      split at h
      next he =>
        exact ⟨raw, rfl, Or.inr (Or.inr ⟨rfl, he, (Except.ok.inj h).symm⟩)⟩
      next he => exact absurd h (by simp)

/-- Processing one entry touches only the rows named after that entry. -/
theorem processEntry_frame (hash : String → String) (execOk : String → Bool)
    (files : List (String × String)) (snapshot : List DbUpdateRow)
    (ls ls' : LoopState) (u : String)
    (h : processEntry hash execOk files snapshot ls u = .ok ls') :
    ∀ n, n ≠ u → firstRow ls'.db.ledger n = firstRow ls.db.ledger n := by
  intro n hn
  obtain ⟨raw, _, hcase | hcase | hcase⟩ :=
    processEntry_ok_cases hash execOk files snapshot ls ls' u h
  · obtain ⟨r, _, _, hls⟩ := hcase
    rw [hls]
  · obtain ⟨r, _, _, _, hls⟩ := hcase
    rw [hls]
    exact firstRow_setSha_ne ls.db.ledger u (hash raw) n hn
  · obtain ⟨_, _, hls⟩ := hcase
    rw [hls]
    cases hfr : firstRow ls.db.ledger n with
    | some r0 => exact firstRow_append_some ls.db.ledger _ r0 n hfr
    | none =>
      rw [firstRow_append_none ls.db.ledger _ n hfr]
      simp [hn.symm]

/-- Processing one entry establishes `entryApplied` for it and preserves
the snapshot invariant. -/
theorem processEntry_establish (hash : String → String) (execOk : String → Bool)
    (files : List (String × String)) (snapshot : List DbUpdateRow)
    (ls ls' : LoopState) (u : String)
    (h : processEntry hash execOk files snapshot ls u = .ok ls')
    (hinv : snapInv hash files snapshot ls.db.ledger) :
    entryApplied hash files u ls'.db.ledger ∧
    snapInv hash files snapshot ls'.db.ledger := by
  obtain ⟨raw, hf, hcase | hcase | hcase⟩ :=
    processEntry_ok_cases hash execOk files snapshot ls ls' u h
  · -- skip: the ledger is unchanged
    obtain ⟨r, hr, hs, hls⟩ := hcase
    have happ : entryApplied hash files u ls.db.ledger := by
      rcases hinv u with heq | happ
      · exact ⟨raw, r, hf, heq.trans hr, hs⟩
      · exact happ
    have hledger : ls'.db.ledger = ls.db.ledger := by rw [hls]
    constructor
    · rw [hledger]; exact happ
    · intro n; rw [hledger]; exact hinv n
  · -- update: all rows named `u` are rewritten to the new digest
    obtain ⟨r, hr, _, _, hls⟩ := hcase
    have hledger : ls'.db.ledger = setSha u (hash raw) ls.db.ledger := by rw [hls]
    have hsome : ∃ r0, firstRow ls.db.ledger u = some r0 := by
      rcases hinv u with heq | ⟨raw', r', _, hfr, _⟩
      · exact ⟨r, heq.trans hr⟩
      · exact ⟨r', hfr⟩
    obtain ⟨r0, hr0⟩ := hsome
    have happ : entryApplied hash files u ls'.db.ledger := by
      refine ⟨raw, { r0 with sha256 := hash raw }, hf, ?_, rfl⟩
      rw [hledger, firstRow_setSha_eq, hr0]
      rfl
    refine ⟨happ, fun n => ?_⟩
    by_cases hn : n = u
    · exact Or.inr (hn ▸ happ)
    · rw [hledger, firstRow_setSha_ne ls.db.ledger u (hash raw) n hn]
      rcases hinv n with heq | ⟨raw', r', hf', hfr', hs'⟩
      · exact Or.inl heq
      · exact Or.inr ⟨raw', r', hf', by
          rw [firstRow_setSha_ne ls.db.ledger u (hash raw) n hn]; exact hfr', hs'⟩
  · -- insert: a fresh row named `u` is appended
    obtain ⟨hr, _, hls⟩ := hcase
    have hledger : ls'.db.ledger = ls.db.ledger ++
        [{ id := freshId ls.db.ledger, name := u, sha256 := hash raw }] := by rw [hls]
    have happ : entryApplied hash files u ls'.db.ledger := by
      rcases hinv u with heq | ⟨raw', r', hf', hfr', hs'⟩
      · have hnone : firstRow ls.db.ledger u = none := heq.trans hr
        refine ⟨raw, { id := freshId ls.db.ledger, name := u, sha256 := hash raw }, hf, ?_, rfl⟩
        rw [hledger, firstRow_append_none ls.db.ledger _ u hnone]
        simp
      · refine ⟨raw', r', hf', ?_, hs'⟩
        rw [hledger]
        exact firstRow_append_some ls.db.ledger _ r' u hfr'
    refine ⟨happ, fun n => ?_⟩
    by_cases hn : n = u
    · exact Or.inr (hn ▸ happ)
    · have hfr : firstRow ls'.db.ledger n = firstRow ls.db.ledger n := by
        rw [hledger]
        cases hfr0 : firstRow ls.db.ledger n with
        | some r0 => exact firstRow_append_some ls.db.ledger _ r0 n hfr0
        | none =>
          rw [firstRow_append_none ls.db.ledger _ n hfr0]
          simp
          exact fun hh => hn hh.symm
      rcases hinv n with heq | ⟨raw', r', hf', hfr', hs'⟩
      · exact Or.inl (hfr.trans heq)
      · exact Or.inr ⟨raw', r', hf', hfr.trans hfr', hs'⟩

/-! ## Loop-level lemmas -/

/-- A successful pass over the manifest preserves the snapshot invariant,
accounts for every processed entry, and touches no other first rows. -/
theorem runLoop_ledger_spec (hash : String → String) (execOk : String → Bool)
    (files : List (String × String)) (snapshot : List DbUpdateRow) :
    ∀ (us : List String) (ls ls' : LoopState),
    snapInv hash files snapshot ls.db.ledger →
    runLoop hash execOk files snapshot us ls = .ok ls' →
    snapInv hash files snapshot ls'.db.ledger ∧
    (∀ u ∈ us, entryApplied hash files u ls'.db.ledger) ∧
    (∀ n, firstRow ls'.db.ledger n = firstRow ls.db.ledger n ∨
          entryApplied hash files n ls'.db.ledger) := by
  intro us
  induction us with
  | nil =>
    intro ls ls' hinv h
    simp only [runLoop] at h
    obtain rfl := Except.ok.inj h
    exact ⟨hinv, by simp, fun n => Or.inl rfl⟩
  | cons u us ih =>
    intro ls ls' hinv h
    simp only [runLoop] at h
    cases hp : processEntry hash execOk files snapshot ls u with
    | error e => rw [hp] at h; simp at h
    | ok ls2 =>
      rw [hp] at h
      obtain ⟨happ2, hinv2⟩ := processEntry_establish hash execOk files snapshot ls ls2 u hp hinv
      obtain ⟨hinv', hall, hframe⟩ := ih ls2 ls' hinv2 h
      have hstep : ∀ n, firstRow ls2.db.ledger n = firstRow ls.db.ledger n ∨
          entryApplied hash files n ls2.db.ledger := by
        intro n
        by_cases hn : n = u
        · exact Or.inr (hn ▸ happ2)
        · exact Or.inl (processEntry_frame hash execOk files snapshot ls ls2 u hp n hn)
      refine ⟨hinv', ?_, ?_⟩
      · intro v hv
        rcases List.mem_cons.mp hv with rfl | hv'
        · rcases hframe v with heq | happ'
          · obtain ⟨raw, r, hfi, hfr, hs⟩ := happ2
            exact ⟨raw, r, hfi, heq.trans hfr, hs⟩
          · exact happ'
        · exact hall v hv'
      · intro n
        rcases hframe n with heq | happ'
        · rcases hstep n with heq2 | happ2'
          · exact Or.inl (heq.trans heq2)
          · obtain ⟨raw, r, hfi, hfr, hs⟩ := happ2'
            exact Or.inr ⟨raw, r, hfi, heq.trans hfr, hs⟩
        · exact Or.inr happ'

/-- When every manifest entry is already accounted for in the snapshot,
the loop only records `Skip` decisions and changes nothing else. -/
theorem runLoop_all_skip (hash : String → String) (execOk : String → Bool)
    (files : List (String × String)) (snapshot : List DbUpdateRow) :
    ∀ (us : List String) (ls : LoopState),
    (∀ u ∈ us, entryApplied hash files u snapshot) →
    runLoop hash execOk files snapshot us ls =
      .ok { ls with decisions := ls.decisions ++ us.map (fun _ => Decision.skip) } := by
  intro us
  induction us with
  | nil => intro ls _; simp [runLoop]
  | cons u us ih =>
    intro ls h
    obtain ⟨raw, r, hfi, hfr, hs⟩ := h u (List.mem_cons_self u us)
    simp only [runLoop, processEntry, hfi, hfr]
    rw [if_pos hs]
    exact (ih { ls with decisions := ls.decisions ++ [Decision.skip] }
      (fun v hv => h v (List.mem_cons_of_mem u hv))).trans (by simp [List.append_assoc])

/-- All decisions of a successful pass are the function of the pre-run
snapshot alone. -/
theorem runLoop_decisions_spec (hash : String → String) (execOk : String → Bool)
    (files : List (String × String)) (snapshot : List DbUpdateRow) :
    ∀ (us : List String) (ls ls' : LoopState),
    runLoop hash execOk files snapshot us ls = .ok ls' →
    ls'.decisions = ls.decisions ++ us.map (decideFromSnapshot hash files snapshot) := by
  intro us
  induction us with
  | nil =>
    intro ls ls' h
    simp only [runLoop] at h
    obtain rfl := Except.ok.inj h
    simp
  | cons u us ih =>
    intro ls ls' h
    simp only [runLoop] at h
    cases hp : processEntry hash execOk files snapshot ls u with
    | error e => rw [hp] at h; simp at h
    | ok ls2 =>
      rw [hp] at h
      have hd : ls2.decisions = ls.decisions ++ [decideFromSnapshot hash files snapshot u] := by
        obtain ⟨raw, hfi, hcase | hcase | hcase⟩ :=
          processEntry_ok_cases hash execOk files snapshot ls ls2 u hp
        · obtain ⟨r, hr, hs, hls⟩ := hcase
          rw [hls]
          simp [decideFromSnapshot, hfi, hr, hs]
        · obtain ⟨r, hr, hs, _, hls⟩ := hcase
          rw [hls]
          simp [decideFromSnapshot, hfi, hr, hs]
        · obtain ⟨hr, _, hls⟩ := hcase
          rw [hls]
          simp [decideFromSnapshot, hfi, hr]
      rw [ih ls2 ls' h, hd]
      simp [List.append_assoc]

/-- Row-count effect of one entry: counts of other names never change;
the entry's own count changes only in the insert case. -/
theorem processEntry_count (hash : String → String) (execOk : String → Bool)
    (files : List (String × String)) (snapshot : List DbUpdateRow)
    (ls ls' : LoopState) (u : String)
    (h : processEntry hash execOk files snapshot ls u = .ok ls') :
    (∀ n, n ≠ u → countRows ls'.db.ledger n = countRows ls.db.ledger n) ∧
    (firstRow snapshot u ≠ none → countRows ls'.db.ledger u = countRows ls.db.ledger u) ∧
    (firstRow snapshot u = none → countRows ls'.db.ledger u = countRows ls.db.ledger u + 1) := by
  obtain ⟨raw, hfi, hcase | hcase | hcase⟩ :=
    processEntry_ok_cases hash execOk files snapshot ls ls' u h
  · obtain ⟨r, hr, _, hls⟩ := hcase
    refine ⟨fun n _ => by rw [hls], fun _ => by rw [hls], fun hnone => ?_⟩
    rw [hr] at hnone; simp at hnone
  · obtain ⟨r, hr, _, _, hls⟩ := hcase
    refine ⟨fun n _ => ?_, fun _ => ?_, fun hnone => ?_⟩
    · rw [hls]; exact countRows_setSha ls.db.ledger u (hash raw) n
    · rw [hls]; exact countRows_setSha ls.db.ledger u (hash raw) u
    · rw [hr] at hnone; simp at hnone
  · obtain ⟨hr, _, hls⟩ := hcase
    refine ⟨fun n hn => ?_, fun hsome => absurd hr hsome, fun _ => ?_⟩
    · rw [hls]
      rw [countRows_append]
      simp
      exact fun hh => hn hh.symm
    · rw [hls]
      rw [countRows_append]
      simp

/-- With a duplicate-free manifest suffix whose counts still agree with
the snapshot, a successful pass keeps every per-name row count at most
one. -/
theorem runLoop_count_nodup (hash : String → String) (execOk : String → Bool)
    (files : List (String × String)) (snapshot : List DbUpdateRow) :
    ∀ (us : List String) (ls ls' : LoopState), us.Nodup →
    runLoop hash execOk files snapshot us ls = .ok ls' →
    (∀ n, countRows ls.db.ledger n ≤ 1) →
    (∀ n ∈ us, countRows ls.db.ledger n = countRows snapshot n) →
    (∀ n, countRows ls'.db.ledger n ≤ 1) := by
  intro us
  induction us with
  | nil =>
    intro ls ls' _ h hle _
    simp only [runLoop] at h
    obtain rfl := Except.ok.inj h
    exact hle
  | cons u us ih =>
    intro ls ls' hnd h hle hsnap
    simp only [runLoop] at h
    cases hp : processEntry hash execOk files snapshot ls u with
    | error e => rw [hp] at h; simp at h
    | ok ls2 =>
      rw [hp] at h
      obtain ⟨hframe, hkeep, hins⟩ := processEntry_count hash execOk files snapshot ls ls2 u hp
      have hle2 : ∀ n, countRows ls2.db.ledger n ≤ 1 := by
        intro n
        by_cases hn : n = u
        · subst hn
          cases hfr : firstRow snapshot n with
          | some r => rw [hkeep (by rw [hfr]; simp)]; exact hle n
          | none =>
            rw [hins hfr]
            have h0 : countRows ls.db.ledger n = 0 := by
              rw [hsnap n (List.mem_cons_self n us)]
              exact (firstRow_none_iff_countRows_zero snapshot n).mp hfr
            omega
        · rw [hframe n hn]; exact hle n
      have hsnap2 : ∀ n ∈ us, countRows ls2.db.ledger n = countRows snapshot n := by
        intro n hn
        have hne : n ≠ u := by
          rintro rfl
          exact (List.nodup_cons.mp hnd).1 hn
        rw [hframe n hne]
        exact hsnap n (List.mem_cons_of_mem u hn)
      exact ih ls2 ls' (List.nodup_cons.mp hnd).2 h hle2 hsnap2

/-- Row counts of names the pass cannot insert (already in the snapshot,
or not processed at all) never change. -/
theorem runLoop_count_frame (hash : String → String) (execOk : String → Bool)
    (files : List (String × String)) (snapshot : List DbUpdateRow) :
    ∀ (us : List String) (ls ls' : LoopState),
    runLoop hash execOk files snapshot us ls = .ok ls' →
    ∀ n, (firstRow snapshot n ≠ none ∨ n ∉ us) →
    countRows ls'.db.ledger n = countRows ls.db.ledger n := by
  intro us
  induction us with
  | nil =>
    intro ls ls' h n _
    simp only [runLoop] at h
    obtain rfl := Except.ok.inj h
    rfl
  | cons u us ih =>
    intro ls ls' h n hn
    simp only [runLoop] at h
    cases hp : processEntry hash execOk files snapshot ls u with
    | error e => rw [hp] at h; simp at h
    | ok ls2 =>
      rw [hp] at h
      obtain ⟨hframe, hkeep, _⟩ := processEntry_count hash execOk files snapshot ls ls2 u hp
      have hstep : countRows ls2.db.ledger n = countRows ls.db.ledger n := by
        by_cases hnu : n = u
        · subst hnu
          rcases hn with hsome | hnot
          · exact hkeep hsome
          · exact absurd (List.mem_cons_self n us) hnot
        · exact hframe n hnu
      have htail : n ∉ us → True := fun _ => trivial
      rcases hn with hsome | hnot
      · rw [ih ls2 ls' h n (Or.inl hsome)]; exact hstep
      · rw [ih ls2 ls' h n (Or.inr (fun hmem => hnot (List.mem_cons_of_mem u hmem)))]
        exact hstep

theorem countRows_singleton_le_one (r : DbUpdateRow) (n : String) :
    countRows [r] n ≤ 1 := by
  rw [countRows_cons]
  by_cases h : r.name = n <;> simp [countRows, h]

theorem count_notReferenced_map (f : String) (l : List String) :
    (l.map Warning.notReferenced).count (Warning.notReferenced f) = l.count f :=
  List.count_map_of_injective l Warning.notReferenced
    (fun _ _ h => Warning.notReferenced.inj h) f

theorem count_notReferenced_in_rls_map (f : String) (l : List String) :
    (l.map Warning.tableWithoutRLS).count (Warning.notReferenced f) = 0 :=
  List.count_eq_zero.mpr (by simp [List.mem_map])

theorem count_tableWithoutRLS_map (f : String) (l : List String) :
    (l.map Warning.tableWithoutRLS).count (Warning.tableWithoutRLS f) = l.count f :=
  List.count_map_of_injective l Warning.tableWithoutRLS
    (fun _ _ h => Warning.tableWithoutRLS.inj h) f

theorem count_tableWithoutRLS_in_ref_map (f : String) (l : List String) :
    (l.map Warning.notReferenced).count (Warning.tableWithoutRLS f) = 0 :=
  List.count_eq_zero.mpr (by simp [List.mem_map])

/-! ## Claim theorems -/

/-- C2: if any manifest entry fails (file missing or execution error), the
run rolls the single enclosing transaction back and exits non-zero: the
resulting database carries exactly the pre-run ledger rows and schema
objects — nothing of entries 1..k remains visible. -/
theorem C2_failure_rolls_back (hash : String → String) (execOk : String → Bool)
    (files : List (String × String)) (updates ignoreL : List String)
    (doCommit : Bool) (db0 : DbState) (e : String) (ls : LoopState)
    (h : runLoop hash execOk files (ensureLedgerTable db0).ledger updates
      { db := ensureLedgerTable db0, updateCounter := 0, executedBodies := [],
        ledgerWrites := 0, decisions := [] } = .error (e, ls)) :
    (runTool hash execOk files updates ignoreL doCommit db0).exitCode = 1 ∧
    (runTool hash execOk files updates ignoreL doCommit db0).db.ledger = db0.ledger ∧
    (runTool hash execOk files updates ignoreL doCommit db0).db.objects = db0.objects := by
  simp only [runTool]
  rw [h]
  exact ⟨rfl, rfl, rfl⟩

/-- C2 witness: a concrete one-entry commit run whose script execution
fails exits 1 and leaves ledger and objects untouched. -/
theorem C2_failure_rolls_back_witness :
    (runTool id (fun _ => false) [("a.sql", "CREATE TABLE a;")] ["a.sql"] [] true
      (⟨true, [], ["prior"]⟩ : DbState)).exitCode = 1 ∧
    (runTool id (fun _ => false) [("a.sql", "CREATE TABLE a;")] ["a.sql"] [] true
      (⟨true, [], ["prior"]⟩ : DbState)).db.ledger = [] ∧
    (runTool id (fun _ => false) [("a.sql", "CREATE TABLE a;")] ["a.sql"] [] true
      (⟨true, [], ["prior"]⟩ : DbState)).db.objects = ["prior"] :=
  C2_failure_rolls_back id (fun _ => false) [("a.sql", "CREATE TABLE a;")] ["a.sql"] []
    true ⟨true, [], ["prior"]⟩ "CREATE TABLE a;"
    { db := ⟨true, [], ["prior"]⟩, updateCounter := 0, executedBodies := [],
      ledgerWrites := 0, decisions := [] } rfl

/-- C3 counterexample: the digest stored in the ledger is taken of the
raw script text (line 263) before template expansion (line 266), not of
the expanded text as the claim states.  With the identity digest, the
script `%DEFAULT_COLUMNS%` is stored under the digest of its raw text,
which differs from the digest of its expansion. -/
theorem C3_hash_of_raw_counterexample :
    (runTool id (fun _ => true) [("t.sql", "%DEFAULT_COLUMNS%")] ["t.sql"] [] true
        (⟨false, [], []⟩ : DbState)).db.ledger =
      [{ id := 0, name := "t.sql", sha256 := "%DEFAULT_COLUMNS%" }] ∧
    injectDefaults "%DEFAULT_COLUMNS%" ≠ "%DEFAULT_COLUMNS%" := by
  constructor
  · rfl
  · decide

/-- C3 (amended): per entry the order is resolve, hash the *raw* content,
then expand; every executed body is the template-expanded text and every
ledger row written stores the digest of the raw (pre-expansion) text. -/
theorem C3_resolve_hash_then_expand (hash : String → String) (execOk : String → Bool)
    (files : List (String × String)) (snapshot : List DbUpdateRow)
    (ls ls' : LoopState) (u raw : String)
    (hfile : lookupFile files u = some raw)
    (h : processEntry hash execOk files snapshot ls u = .ok ls') :
    (ls'.executedBodies = ls.executedBodies ∨
     ls'.executedBodies = ls.executedBodies ++ [injectDefaults raw]) ∧
    (∀ r ∈ ls'.db.ledger, r ∈ ls.db.ledger ∨ r.sha256 = hash raw) := by
  obtain ⟨raw', hfile', hcase | hcase | hcase⟩ :=
    processEntry_ok_cases hash execOk files snapshot ls ls' u h
  all_goals
    rw [hfile] at hfile'
    obtain rfl := Option.some.inj hfile'
  · obtain ⟨r, _, _, hls⟩ := hcase
    rw [hls]
    exact ⟨Or.inl rfl, fun r hr => Or.inl hr⟩
  · obtain ⟨r, _, _, _, hls⟩ := hcase
    rw [hls]
    refine ⟨Or.inr rfl, fun r2 hr2 => ?_⟩
    simp only [setSha, List.mem_map] at hr2
    obtain ⟨r3, hr3, hr3eq⟩ := hr2
    by_cases hname : r3.name = u
    · right
      rw [← hr3eq]
      simp [hname]
    · left
      rw [← hr3eq]
      simpa [hname] using hr3
  · obtain ⟨_, _, hls⟩ := hcase
    rw [hls]
    refine ⟨Or.inr rfl, fun r2 hr2 => ?_⟩
    rcases List.mem_append.mp hr2 with hold | hnew
    · exact Or.inl hold
    · right
      rw [List.mem_singleton.mp hnew]

/-- C3 witness: a concrete fresh insert executes the expanded body and
stores the digest of the raw text. -/
theorem C3_resolve_hash_then_expand_witness :
    ((["X"] : List String) = [] ∨ (["X"] : List String) = [] ++ [injectDefaults "X"]) ∧
    (∀ r ∈ [({ id := 0, name := "t.sql", sha256 := "X" } : DbUpdateRow)],
       r ∈ ([] : List DbUpdateRow) ∨ r.sha256 = id "X") :=
  C3_resolve_hash_then_expand id (fun _ => true) [("t.sql", "X")] []
    { db := { ledgerTableExists := true, ledger := [], objects := [] },
      updateCounter := 0, executedBodies := [], ledgerWrites := 0, decisions := [] }
    { db := { ledgerTableExists := true,
              ledger := [{ id := 0, name := "t.sql", sha256 := "X" }], objects := ["X"] },
      updateCounter := 1, executedBodies := ["X"], ledgerWrites := 1,
      decisions := [Decision.insert] }
    "t.sql" "X" rfl rfl

/-- C4 counterexample: a manifest repeating a name that is not yet in the
ledger inserts one row per occurrence — after the run two rows carry the
name, violating the claimed at-most-one-record-per-name invariant. -/
theorem C4_duplicate_name_counterexample :
    countRows (runTool id (fun _ => true) [("a.sql", "X")] ["a.sql", "a.sql"] [] true
        (⟨false, [], []⟩ : DbState)).db.ledger "a.sql" = 2 := by
  decide

/-- C5 counterexample: a dry-run invocation on a database without the
ledger table exits 0 but does not leave every database object in its
pre-run state — `manage_db_updates_table` runs before `BEGIN` (line 240
versus line 250), so the created ledger table survives the rollback; and
a dry run whose entry fails execution exits 1, not with success status. -/
theorem C5_dry_run_creates_ledger_table :
    ((runTool id (fun _ => true) [] [] [] false (⟨false, [], []⟩ : DbState)).exitCode = 0 ∧
     (runTool id (fun _ => true) [] [] [] false (⟨false, [], []⟩ : DbState)).db ≠
       (⟨false, [], []⟩ : DbState)) ∧
    (runTool id (fun _ => false) [("a.sql", "X")] ["a.sql"] [] false
      (⟨true, [], []⟩ : DbState)).exitCode = 1 := by
  decide

/-- C5 (amended): a dry-run invocation always rolls the transaction back:
ledger rows and schema objects are exactly the pre-run ones; the only
persistent effect is ensuring the ledger table itself, which is created
outside the transaction; when no entry fails, the exit status is 0. -/
theorem C5_dry_run_rolls_back (hash : String → String) (execOk : String → Bool)
    (files : List (String × String)) (updates ignoreL : List String) (db0 : DbState) :
    (runTool hash execOk files updates ignoreL false db0).db.ledger = db0.ledger ∧
    (runTool hash execOk files updates ignoreL false db0).db.objects = db0.objects ∧
    (runTool hash execOk files updates ignoreL false db0).db.ledgerTableExists = true ∧
    ((∃ ls, runLoop hash execOk files (ensureLedgerTable db0).ledger updates
        { db := ensureLedgerTable db0, updateCounter := 0, executedBodies := [],
          ledgerWrites := 0, decisions := [] } = .ok ls) →
      (runTool hash execOk files updates ignoreL false db0).exitCode = 0) := by
  cases hl : runLoop hash execOk files (ensureLedgerTable db0).ledger updates
      { db := ensureLedgerTable db0, updateCounter := 0, executedBodies := [],
        ledgerWrites := 0, decisions := [] } with
  | error p =>
    obtain ⟨e0, ls0⟩ := p
    simp only [runTool, hl]
    exact ⟨rfl, rfl, rfl, fun ⟨ls, hls⟩ => Except.noConfusion hls⟩
  | ok ls0 =>
    simp only [runTool, hl]
    exact ⟨rfl, rfl, rfl, fun _ => rfl⟩

/-- C5 witness: a concrete dry run that would have applied an update
leaves the database rows unchanged and exits 0. -/
theorem C5_dry_run_rolls_back_witness :
    (runTool id (fun _ => true) [("a.sql", "X")] ["a.sql"] [] false
      (⟨false, [], ["o"]⟩ : DbState)).db.ledger = [] ∧
    (runTool id (fun _ => true) [("a.sql", "X")] ["a.sql"] [] false
      (⟨false, [], ["o"]⟩ : DbState)).db.objects = ["o"] ∧
    (runTool id (fun _ => true) [("a.sql", "X")] ["a.sql"] [] false
      (⟨false, [], ["o"]⟩ : DbState)).exitCode = 0 := by
  obtain ⟨h1, h2, _, h4⟩ :=
    C5_dry_run_rolls_back id (fun _ => true) [("a.sql", "X")] ["a.sql"] [] ⟨false, [], ["o"]⟩
  exact ⟨h1, h2, h4 ⟨_, rfl⟩⟩

/-- C6: with the change-script directory missing and the connection
parameters set, the run fails before any connection attempt: the
missing-directory message is printed at the check, startup never reaches
the connection phase (so no script is executed), and the process
terminates with a non-zero exit status — whether or not the manifest
json is readable. -/
theorem C6_missing_dir_fails_before_connect (e : EnvConfig) (jsonReadable : Bool)
    (h : envOk e = true) :
    dirWarningPrinted e false = true ∧
    startup e false jsonReadable ≠ .ready ∧
    startupExitCode (startup e false jsonReadable) = some 1 := by
  cases jsonReadable <;>
    exact ⟨by simp [dirWarningPrinted, h], by simp [startup, h],
      by simp [startup, startupExitCode, h]⟩

/-- C6 witness: concrete environment with the script directory missing
and the manifest json readable. -/
theorem C6_missing_dir_fails_before_connect_witness :
    dirWarningPrinted ⟨some "h", some "5432", some "d", some "u", some "p"⟩ false = true ∧
    startup ⟨some "h", some "5432", some "d", some "u", some "p"⟩ false true ≠ .ready ∧
    startupExitCode (startup ⟨some "h", some "5432", some "d", some "u", some "p"⟩
      false true) = some 1 :=
  C6_missing_dir_fails_before_connect ⟨some "h", some "5432", some "d", some "u", some "p"⟩
    true (by decide)

/-- C8 counterexample: the two substitutions of `injectDefaults` are not
order-independent — on a text nesting the columns placeholder inside the
trigger placeholder's argument, the two application orders produce
different outputs. -/
theorem C8_substitutions_not_commutative :
    replaceDefaultTrigger (replaceDefaultColumns "%DEFAULT_TRIGGER(a.%DEFAULT_COLUMNS%)%") ≠
      replaceDefaultColumns (replaceDefaultTrigger "%DEFAULT_TRIGGER(a.%DEFAULT_COLUMNS%)%") := by
  decide

/-- C8 (amended): `injectDefaults` applies the column substitution first
and the trigger substitution second; it is a pure function of the input
text, and when neither placeholder matches, both application orders leave
the text verbatim. -/
theorem C8_unmatched_left_verbatim (s : String)
    (hcols : hasOccur "%DEFAULT_COLUMNS%".toList s.toList = false)
    (htrig : triggerSearch s.toList = none) :
    injectDefaults s = s ∧ replaceDefaultColumns (replaceDefaultTrigger s) = s := by
  have hc : replaceDefaultColumns s = s := by
    unfold replaceDefaultColumns replaceFirstStr
    rw [replaceFirstAux_of_not_occur _ _ _ hcols, stringMkToList]
  have ht : replaceDefaultTrigger s = s := by
    unfold replaceDefaultTrigger
    rw [htrig]
  constructor
  · unfold injectDefaults
    rw [hc, ht]
  · rw [ht, hc]

/-- C8 witness: a placeholder-free script is left verbatim by the
expander in both substitution orders. -/
theorem C8_unmatched_left_verbatim_witness :
    injectDefaults "CREATE TABLE x (a INT);" = "CREATE TABLE x (a INT);" ∧
    replaceDefaultColumns (replaceDefaultTrigger "CREATE TABLE x (a INT);") =
      "CREATE TABLE x (a INT);" :=
  C8_unmatched_left_verbatim "CREATE TABLE x (a INT);" (by decide) (by decide)

/-- C10: every decision of a successful run is a function of the ledger
snapshot fetched before the loop; writes made during the run are never
consulted, so duplicate manifest names are decided identically. -/
theorem C10_decisions_from_snapshot (hash : String → String) (execOk : String → Bool)
    (files : List (String × String)) (updates ignoreL : List String)
    (doCommit : Bool) (db0 : DbState)
    (h : (runTool hash execOk files updates ignoreL doCommit db0).exitCode = 0) :
    (runTool hash execOk files updates ignoreL doCommit db0).decisions =
      updates.map (decideFromSnapshot hash files db0.ledger) := by
  cases hl : runLoop hash execOk files (ensureLedgerTable db0).ledger updates
      { db := ensureLedgerTable db0, updateCounter := 0, executedBodies := [],
        ledgerWrites := 0, decisions := [] } with
  | error p =>
    obtain ⟨e0, ls0⟩ := p
    rw [show (runTool hash execOk files updates ignoreL doCommit db0).exitCode = 1 by
      simp only [runTool, hl]] at h
    cases h
  | ok ls =>
    have hd := runLoop_decisions_spec hash execOk files (ensureLedgerTable db0).ledger updates
      _ ls hl
    simp only [runTool, hl]
    cases doCommit
    · simpa using hd
    · simpa using hd

/-- C10 witness: a run whose manifest repeats a fresh name decides both
occurrences as Insert from the same empty snapshot. -/
theorem C10_decisions_from_snapshot_witness :
    (runTool id (fun _ => true) [("a.sql", "X")] ["a.sql", "a.sql"] [] true
        (⟨false, [], []⟩ : DbState)).decisions =
      ["a.sql", "a.sql"].map (decideFromSnapshot id [("a.sql", "X")] []) :=
  C10_decisions_from_snapshot id (fun _ => true) [("a.sql", "X")] ["a.sql", "a.sql"] []
    true ⟨false, [], []⟩ (by decide)

/-- C1: after a successful commit-mode run, a second commit-mode run over
the same manifest and unchanged script files executes zero script bodies,
performs zero ledger writes and resolves every manifest entry to Skip —
regardless of how the executor would behave on the second run. -/
theorem C1_second_run_all_skip (hash : String → String) (execOk execOk2 : String → Bool)
    (files : List (String × String)) (updates ignoreL : List String) (db0 : DbState)
    (h : (runTool hash execOk files updates ignoreL true db0).exitCode = 0) :
    (runTool hash execOk2 files updates ignoreL true
        (runTool hash execOk files updates ignoreL true db0).db).executedBodies = [] ∧
    (runTool hash execOk2 files updates ignoreL true
        (runTool hash execOk files updates ignoreL true db0).db).ledgerWrites = 0 ∧
    (runTool hash execOk2 files updates ignoreL true
        (runTool hash execOk files updates ignoreL true db0).db).decisions =
      updates.map (fun _ => Decision.skip) ∧
    (runTool hash execOk2 files updates ignoreL true
        (runTool hash execOk files updates ignoreL true db0).db).exitCode = 0 := by
  cases hl1 : runLoop hash execOk files (ensureLedgerTable db0).ledger updates
      { db := ensureLedgerTable db0, updateCounter := 0, executedBodies := [],
        ledgerWrites := 0, decisions := [] } with
  | error p =>
    obtain ⟨e0, ls0⟩ := p
    rw [show (runTool hash execOk files updates ignoreL true db0).exitCode = 1 by
      simp only [runTool]; rw [hl1]] at h
    cases h
  | ok ls =>
    have hdb : (runTool hash execOk files updates ignoreL true db0).db = ls.db := by
      simp only [runTool]; rw [hl1]; simp
    have happlied :=
      (runLoop_ledger_spec hash execOk files (ensureLedgerTable db0).ledger updates
        _ ls (fun n => Or.inl rfl) hl1).2.1
    have hl2 := runLoop_all_skip hash execOk2 files (ensureLedgerTable ls.db).ledger updates
      { db := ensureLedgerTable ls.db, updateCounter := 0, executedBodies := [],
        ledgerWrites := 0, decisions := [] }
      (fun u hu => happlied u hu)
    rw [hdb]
    simp only [runTool]
    rw [hl2]
    refine ⟨?_, ?_, ?_, ?_⟩ <;> simp

/-- C1 witness: a concrete commit run followed by a second run that skips
its single entry. -/
theorem C1_second_run_all_skip_witness :
    (runTool id (fun _ => true) [("a.sql", "CREATE TABLE a;")] ["a.sql"] [] true
        (runTool id (fun _ => true) [("a.sql", "CREATE TABLE a;")] ["a.sql"] [] true
          (⟨false, [], []⟩ : DbState)).db).executedBodies = [] ∧
    (runTool id (fun _ => true) [("a.sql", "CREATE TABLE a;")] ["a.sql"] [] true
        (runTool id (fun _ => true) [("a.sql", "CREATE TABLE a;")] ["a.sql"] [] true
          (⟨false, [], []⟩ : DbState)).db).ledgerWrites = 0 ∧
    (runTool id (fun _ => true) [("a.sql", "CREATE TABLE a;")] ["a.sql"] [] true
        (runTool id (fun _ => true) [("a.sql", "CREATE TABLE a;")] ["a.sql"] [] true
          (⟨false, [], []⟩ : DbState)).db).decisions =
      ["a.sql"].map (fun _ => Decision.skip) ∧
    (runTool id (fun _ => true) [("a.sql", "CREATE TABLE a;")] ["a.sql"] [] true
        (runTool id (fun _ => true) [("a.sql", "CREATE TABLE a;")] ["a.sql"] [] true
          (⟨false, [], []⟩ : DbState)).db).exitCode = 0 :=
  C1_second_run_all_skip id (fun _ => true) (fun _ => true)
    [("a.sql", "CREATE TABLE a;")] ["a.sql"] [] ⟨false, [], []⟩ (by decide)

/-- C4 (amended): when every script name occurs at most once in the
manifest and the pre-run ledger has at most one row per name, every run
preserves at-most-one-row-per-name; and a changed already-applied script
is updated in place on a successful commit run — its row count is
unchanged and its first row carries the new digest.  (A manifest that
repeats a name absent from the ledger violates the invariant, see the
counterexample.) -/
theorem C4_unique_name_preserved (hash : String → String) (execOk : String → Bool)
    (files : List (String × String)) (updates ignoreL : List String)
    (doCommit : Bool) (db0 : DbState)
    (hnd : updates.Nodup)
    (hle : ∀ n, countRows db0.ledger n ≤ 1) :
    (∀ n, countRows (runTool hash execOk files updates ignoreL doCommit db0).db.ledger n ≤ 1) ∧
    (∀ u raw row0, doCommit = true → u ∈ updates →
      lookupFile files u = some raw →
      firstRow db0.ledger u = some row0 → row0.sha256 ≠ hash raw →
      (runTool hash execOk files updates ignoreL doCommit db0).exitCode = 0 →
      countRows (runTool hash execOk files updates ignoreL doCommit db0).db.ledger u =
        countRows db0.ledger u ∧
      ∃ row1, firstRow (runTool hash execOk files updates ignoreL doCommit db0).db.ledger u =
        some row1 ∧ row1.sha256 = hash raw) := by
  cases hl : runLoop hash execOk files (ensureLedgerTable db0).ledger updates
      { db := ensureLedgerTable db0, updateCounter := 0, executedBodies := [],
        ledgerWrites := 0, decisions := [] } with
  | error p =>
    obtain ⟨e0, ls0⟩ := p
    have hdb : (runTool hash execOk files updates ignoreL doCommit db0).db =
        ensureLedgerTable db0 := by
      simp only [runTool]; rw [hl]
    have hexit : (runTool hash execOk files updates ignoreL doCommit db0).exitCode = 1 := by
      simp only [runTool]; rw [hl]
    refine ⟨fun n => ?_, fun u raw row0 _ _ _ _ _ hok => ?_⟩
    · rw [hdb]; exact hle n
    · rw [hexit] at hok; cases hok
  | ok ls =>
    cases doCommit with
    | false =>
      have hdb : (runTool hash execOk files updates ignoreL false db0).db =
          ensureLedgerTable db0 := by
        simp only [runTool]; rw [hl]; simp
      refine ⟨fun n => by rw [hdb]; exact hle n,
        fun u raw row0 hcommit _ _ _ _ _ => by cases hcommit⟩
    | true =>
      have hdb : (runTool hash execOk files updates ignoreL true db0).db = ls.db := by
        simp only [runTool]; rw [hl]; simp
      have hcount := runLoop_count_nodup hash execOk files (ensureLedgerTable db0).ledger
        updates _ ls hnd hl (fun n => hle n) (fun n _ => rfl)
      refine ⟨fun n => by rw [hdb]; exact hcount n,
        fun u raw row0 _ hu hlk hfr hne hok => ?_⟩
      constructor
      · rw [hdb]
        exact runLoop_count_frame hash execOk files (ensureLedgerTable db0).ledger
          updates _ ls hl u (Or.inl (by
            show firstRow db0.ledger u ≠ none
            rw [hfr]; simp))
      · obtain ⟨raw', r', hlk', hfr', hs'⟩ :=
          (runLoop_ledger_spec hash execOk files (ensureLedgerTable db0).ledger updates
            _ ls (fun n => Or.inl rfl) hl).2.1 u hu
        rw [hlk] at hlk'
        obtain rfl := Option.some.inj hlk'
        exact ⟨r', by rw [hdb]; exact hfr', hs'⟩

/-- C4 witness: a drift run (changed content of an applied script) keeps
one row for the name and rewrites its digest in place. -/
theorem C4_unique_name_preserved_witness :
    countRows (runTool id (fun _ => true) [("a.sql", "NEW")] ["a.sql"] [] true
        (⟨true, [⟨5, "a.sql", "OLD"⟩], []⟩ : DbState)).db.ledger "a.sql" ≤ 1 ∧
    countRows (runTool id (fun _ => true) [("a.sql", "NEW")] ["a.sql"] [] true
        (⟨true, [⟨5, "a.sql", "OLD"⟩], []⟩ : DbState)).db.ledger "a.sql" =
      countRows [⟨5, "a.sql", "OLD"⟩] "a.sql" ∧
    ∃ row1, firstRow (runTool id (fun _ => true) [("a.sql", "NEW")] ["a.sql"] [] true
        (⟨true, [⟨5, "a.sql", "OLD"⟩], []⟩ : DbState)).db.ledger "a.sql" = some row1 ∧
      row1.sha256 = id "NEW" := by
  have h := C4_unique_name_preserved id (fun _ => true) [("a.sql", "NEW")] ["a.sql"] [] true
    ⟨true, [⟨5, "a.sql", "OLD"⟩], []⟩ (by decide)
    (fun n => countRows_singleton_le_one ⟨5, "a.sql", "OLD"⟩ n)
  obtain ⟨hd1, hd2⟩ := h.2 "a.sql" "NEW" ⟨5, "a.sql", "OLD"⟩ rfl (by decide) rfl rfl
    (by decide) (by decide)
  exact ⟨h.1 "a.sql", hd1, hd2⟩

/-- C7: a file referenced by neither the updates list nor the ignore list
yields exactly one orphan warning on every successful run, in both modes;
and the application behaviour (exit code, database, decisions, executed
bodies) is independent of the ignore list, so the warning never blocks
application. -/
theorem C7_orphan_warning_once (hash : String → String) (execOk : String → Bool)
    (files : List (String × String)) (updates ignore1 ignore2 : List String)
    (doCommit : Bool) (db0 : DbState) (f : String)
    (hnd : (sortStrings (files.map Prod.fst)).Nodup)
    (hmem : f ∈ sortStrings (files.map Prod.fst))
    (hup : f ∉ updates) (hig : f ∉ ignore1)
    (hok : (runTool hash execOk files updates ignore1 doCommit db0).exitCode = 0) :
    (runTool hash execOk files updates ignore1 doCommit db0).warnings.count
        (Warning.notReferenced f) = 1 ∧
    (runTool hash execOk files updates ignore1 doCommit db0).exitCode =
      (runTool hash execOk files updates ignore2 doCommit db0).exitCode ∧
    (runTool hash execOk files updates ignore1 doCommit db0).db =
      (runTool hash execOk files updates ignore2 doCommit db0).db ∧
    (runTool hash execOk files updates ignore1 doCommit db0).decisions =
      (runTool hash execOk files updates ignore2 doCommit db0).decisions ∧
    (runTool hash execOk files updates ignore1 doCommit db0).executedBodies =
      (runTool hash execOk files updates ignore2 doCommit db0).executedBodies := by
  cases hl : runLoop hash execOk files (ensureLedgerTable db0).ledger updates
      { db := ensureLedgerTable db0, updateCounter := 0, executedBodies := [],
        ledgerWrites := 0, decisions := [] } with
  | error p =>
    obtain ⟨e0, ls0⟩ := p
    rw [show (runTool hash execOk files updates ignore1 doCommit db0).exitCode = 1 by
      simp only [runTool]; rw [hl]] at hok
    cases hok
  | ok ls =>
    have hwarn : (runTool hash execOk files updates ignore1 doCommit db0).warnings =
        printWarnings (sortStrings (files.map Prod.fst)) updates ignore1 := by
      simp only [runTool]; rw [hl]; cases doCommit <;> simp
    refine ⟨?_, ?_⟩
    · rw [hwarn]
      unfold printWarnings
      rw [List.count_append, count_notReferenced_map, count_notReferenced_in_rls_map,
        Nat.add_zero]
      apply List.count_eq_one_of_mem (List.Nodup.filter _ hnd)
      refine List.mem_filter.mpr ⟨hmem, ?_⟩
      simp [hup, hig]
    · simp only [runTool]; rw [hl]
      cases doCommit <;> exact ⟨rfl, rfl, rfl, rfl⟩

/-- C7 witness: a concrete dry run with one unreferenced file warns about
it exactly once and behaves like the run with a different ignore list. -/
theorem C7_orphan_warning_once_witness :
    (runTool id (fun _ => true) [("orphan.sql", "X")] [] [] false
        (⟨true, [], []⟩ : DbState)).warnings.count (Warning.notReferenced "orphan.sql") = 1 ∧
    (runTool id (fun _ => true) [("orphan.sql", "X")] [] [] false
        (⟨true, [], []⟩ : DbState)).exitCode =
      (runTool id (fun _ => true) [("orphan.sql", "X")] [] ["z"] false
        (⟨true, [], []⟩ : DbState)).exitCode ∧
    (runTool id (fun _ => true) [("orphan.sql", "X")] [] [] false
        (⟨true, [], []⟩ : DbState)).db =
      (runTool id (fun _ => true) [("orphan.sql", "X")] [] ["z"] false
        (⟨true, [], []⟩ : DbState)).db ∧
    (runTool id (fun _ => true) [("orphan.sql", "X")] [] [] false
        (⟨true, [], []⟩ : DbState)).decisions =
      (runTool id (fun _ => true) [("orphan.sql", "X")] [] ["z"] false
        (⟨true, [], []⟩ : DbState)).decisions ∧
    (runTool id (fun _ => true) [("orphan.sql", "X")] [] [] false
        (⟨true, [], []⟩ : DbState)).executedBodies =
      (runTool id (fun _ => true) [("orphan.sql", "X")] [] ["z"] false
        (⟨true, [], []⟩ : DbState)).executedBodies :=
  C7_orphan_warning_once id (fun _ => true) [("orphan.sql", "X")] [] [] ["z"] false
    ⟨true, [], []⟩ "orphan.sql" (by decide) (by decide) (by decide) (by decide) (by decide)

/-- C9: a file matching the TABLE filename pattern receives exactly one
pairing warning on a successful run when no file's RLS capture group
equals its own capture group, and none when such a sibling exists. -/
theorem C9_table_rls_pairing (hash : String → String) (execOk : String → Bool)
    (files : List (String × String)) (updates ignoreL : List String)
    (doCommit : Bool) (db0 : DbState) (f g : String)
    (hnd : (sortStrings (files.map Prod.fst)).Nodup)
    (hmem : f ∈ sortStrings (files.map Prod.fst))
    (htm : tableMatch f = some g)
    (hok : (runTool hash execOk files updates ignoreL doCommit db0).exitCode = 0) :
    (runTool hash execOk files updates ignoreL doCommit db0).warnings.count
        (Warning.tableWithoutRLS f) =
      if (sortStrings (files.map Prod.fst)).any (fun f2 => rlsMatchOpt f2 == some g)
      then 0 else 1 := by
  cases hl : runLoop hash execOk files (ensureLedgerTable db0).ledger updates
      { db := ensureLedgerTable db0, updateCounter := 0, executedBodies := [],
        ledgerWrites := 0, decisions := [] } with
  | error p =>
    obtain ⟨e0, ls0⟩ := p
    rw [show (runTool hash execOk files updates ignoreL doCommit db0).exitCode = 1 by
      simp only [runTool]; rw [hl]] at hok
    cases hok
  | ok ls =>
    have hwarn : (runTool hash execOk files updates ignoreL doCommit db0).warnings =
        printWarnings (sortStrings (files.map Prod.fst)) updates ignoreL := by
      simp only [runTool]; rw [hl]; cases doCommit <;> simp
    rw [hwarn]
    unfold printWarnings
    rw [List.count_append, count_tableWithoutRLS_in_ref_map, count_tableWithoutRLS_map,
      Nat.zero_add]
    cases hany : (sortStrings (files.map Prod.fst)).any (fun f2 => rlsMatchOpt f2 == some g) with
    | true =>
      rw [if_pos rfl]
      apply List.count_eq_zero.mpr
      intro hfmem
      have hq := (List.mem_filter.mp hfmem).2
      rw [warnTablesWithoutRLS] at hfmem
      simp only [htm] at hq
      rw [hany] at hq
      cases hq
    | false =>
      rw [if_neg (by simp)]
      apply List.count_eq_one_of_mem (List.Nodup.filter _ hnd)
      refine List.mem_filter.mpr ⟨hmem, ?_⟩
      simp only [htm, hany]
      rfl

/-- C9 witness: a TABLE file without any RLS sibling gets exactly one
pairing warning. -/
theorem C9_table_rls_pairing_witness :
    (runTool id (fun _ => true) [("public.orders TABLE.sql", "X")]
        ["public.orders TABLE.sql"] [] false (⟨true, [], []⟩ : DbState)).warnings.count
        (Warning.tableWithoutRLS "public.orders TABLE.sql") =
      if (sortStrings ([("public.orders TABLE.sql", "X")].map Prod.fst)).any
          (fun f2 => rlsMatchOpt f2 == some "public.orders")
      then 0 else 1 :=
  C9_table_rls_pairing id (fun _ => true) [("public.orders TABLE.sql", "X")]
    ["public.orders TABLE.sql"] [] false ⟨true, [], []⟩ "public.orders TABLE.sql"
    "public.orders" (by decide) (by decide) (by decide) (by decide)

end UpdateDb
